import Mathlib

/-!
Verification development for the real-time draft session coordinator of a
two-party drafting game (backend/app/websocket/draft_manager.py and
backend/app/websocket/draft_ws.py).

The Python source is shallowly embedded: pure helpers become Lean functions,
the stateful session/handler code becomes explicit state-passing functions,
and nondeterminism (random choices, database query results) is supplied as
explicit oracle arguments so every definition is executable and deterministic.
-/

namespace BballDraft

/-- The two fixed participants of a draft (Literal["host", "guest"]). -/
inductive Role where
  | host
  | guest
deriving DecidableEq, Repr

/-- DraftSession.other: the opposite role ("guest" if role == "host" else "host"). -/
def Role.other : Role → Role
  | .host => .guest
  | .guest => .host

/-- DraftManager._expected_role_for_pick: 2-player snake draft order with a
randomized first pick.  pick_number is 1-based; round_idx = (pick_number-1) // 2,
within = (pick_number-1) % 2; even rounds run first,other and odd rounds
other,first.  Callers always pass pick_number >= 1 (session.pick_number + 1). -/
def expectedRoleForPick (first : Role) (pickNumber : Nat) : Role :=
  let other := if first = .host then Role.guest else Role.host
  let roundIdx := (pickNumber - 1) / 2
  let within := (pickNumber - 1) % 2
  if roundIdx % 2 = 0 then
    (if within = 0 then first else other)
  else
    (if within = 0 then other else first)

/-- Written from the spec's words for comparison (claim C1): with
round = (n-1) div 2 and within = (n-1) mod 2, the role is `first` when round is
even and within = 0, the opposite of `first` when round is even and within = 1,
the opposite of `first` when round is odd and within = 0, and `first` when round
is odd and within = 1. -/
def expectedRoleSpec (first : Role) (n : Nat) : Role :=
  let round := (n - 1) / 2
  let within := (n - 1) % 2
  if round % 2 = 0 then
    (if within = 0 then first else first.other)
  else
    (if within = 0 then first.other else first)

/-- A committed pick row as cached in the session / persisted in draft_picks
(display-only fields such as player_name and player_image_url are omitted:
no control flow in the embedded core depends on them). -/
structure PickRow where
  pickNumber : Nat
  role : Role
  playerId : Int
  constraintTeam : Option String := none
  constraintYear : Option String := none
deriving DecidableEq, Repr

/-- One option of a rolled constraint, as rendered by _run_roll's
current_constraint(): the per-option year window, team segment ids, name
letter and concrete player. -/
structure ConstraintOpt where
  yearLabel : String := "No constraint"
  yearStart : Option Int := none
  yearEnd : Option Int := none
  teamIds : List Int := []
  nameLetter : Option String := none
  playerId : Option Int := none
deriving DecidableEq, Repr

/-- A rolled constraint: the dict {"options": [...]} built by _run_roll. -/
structure Constraint where
  options : List ConstraintOpt := []
deriving DecidableEq, Repr

/-- DraftSession: the per-draft in-memory mutable state (connection handles and
the asyncio lock are not modelled; the embedding passes the state explicitly,
which corresponds to the single-session serial order the lock enforces).
pending_selection is modelled with one field per role. -/
structure Session where
  started : Bool := false
  currentTurn : Option Role := none
  pickNumber : Nat := 0
  firstTurn : Option Role := none
  picks : List PickRow := []
  currentConstraint : Option Constraint := none
  pendingHost : Option Int := none
  pendingGuest : Option Int := none
  onlyEligible : Option Bool := none
  draftName : Option String := none
deriving DecidableEq, Repr

/-- DraftManager.rehydrate_from_db: restore in-memory session state from
persisted DB state.  Sets started, first_turn, picks, pick_number = len(picks)
and current_turn = _expected_role_for_pick(first_turn, pick_number + 1) when
started and first_turn is truthy, else None. -/
def rehydrateFromDb (s : Session) (firstTurn : Option Role) (pickRows : List PickRow)
    (started : Bool) : Session :=
  let base := { s with
    started := started
    firstTurn := firstTurn
    picks := pickRows
    pickNumber := pickRows.length }
  match started, firstTurn with
  | true, some f =>
      { base with currentTurn := some (expectedRoleForPick f (pickRows.length + 1)) }
  | _, _ => { base with currentTurn := none }

/-- C1: for every first mover f and 1-based pick number n >= 1 the turn
engine's expected role matches the spec's snake-order formula, and the
concrete sequences for firstTurn = host (picks 1..4) and firstTurn = guest
(picks 1..6) are host,guest,guest,host and guest,host,host,guest,guest,host. -/
theorem expected_role_snake_order (f : Role) (n : Nat) (h : 1 ≤ n) :
    expectedRoleForPick f n = expectedRoleSpec f n ∧
    (List.range 4).map (fun k => expectedRoleForPick .host (k + 1)) =
      [.host, .guest, .guest, .host] ∧
    (List.range 6).map (fun k => expectedRoleForPick .guest (k + 1)) =
      [.guest, .host, .host, .guest, .guest, .host] := by
  refine ⟨?_, by decide, by decide⟩
  cases f <;> simp [expectedRoleForPick, expectedRoleSpec, Role.other]

/-- Witness for C1 at f = host, n = 3. -/
theorem expected_role_snake_order_witness :
    1 ≤ 3 ∧ expectedRoleForPick .host 3 = expectedRoleSpec .host 3 := by
  exact ⟨by decide, (expected_role_snake_order .host 3 (by decide)).1⟩

/-- C7: rehydration is a pure function of the durable inputs: the resulting
started, firstTurn, picks, pickNumber and currentTurn fields are determined
exactly as the claim states, re-running it with the same inputs is the
identity, and two sessions rehydrated from the same inputs agree on
currentTurn, pickNumber and picks (so a full disconnect/reconnect reproduces
them). -/
theorem rehydrate_idempotent (s s₂ : Session) (ft : Option Role)
    (rows : List PickRow) (st : Bool) :
    (rehydrateFromDb s ft rows st).started = st ∧
    (rehydrateFromDb s ft rows st).firstTurn = ft ∧
    (rehydrateFromDb s ft rows st).picks = rows ∧
    (rehydrateFromDb s ft rows st).pickNumber = rows.length ∧
    (rehydrateFromDb s ft rows st).currentTurn =
      (match st, ft with
       | true, some f => some (expectedRoleForPick f (rows.length + 1))
       | _, _ => none) ∧
    rehydrateFromDb (rehydrateFromDb s ft rows st) ft rows st =
      rehydrateFromDb s ft rows st ∧
    (rehydrateFromDb s₂ ft rows st).currentTurn =
      (rehydrateFromDb s ft rows st).currentTurn ∧
    (rehydrateFromDb s₂ ft rows st).pickNumber =
      (rehydrateFromDb s ft rows st).pickNumber ∧
    (rehydrateFromDb s₂ ft rows st).picks = (rehydrateFromDb s ft rows st).picks := by
  cases st <;> cases ft <;> simp [rehydrateFromDb]

/-- Durable draft status (drafts.status: lobby / drafting / completed). -/
inductive DraftStatus where
  | lobby
  | drafting
  | completed
deriving DecidableEq, Repr

/-- The durable draft row fields the coordinator reads and writes
(drafts table): status, first_turn, picks_per_player, per-role reroll
counters, completion timestamp (modelled as a Nat instant). -/
structure DraftRow where
  status : DraftStatus := .drafting
  firstTurn : Option Role := none
  picksPerPlayer : Nat := 2
  hostRerolls : Int := 0
  guestRerolls : Int := 0
  completedAt : Option Nat := none
deriving DecidableEq, Repr

/-- The durable store as the handlers see it: the draft row, the player
catalog (the ids that exist in the players table) and the committed pick
rows of this draft. -/
structure DbState where
  draft : DraftRow := {}
  players : List Int := []
  picks : List PickRow := []
deriving DecidableEq, Repr

/-- Number of committed picks made by a role (the SQL GROUP BY role count in
the make_pick handler, and the host_count/guest_count sums in the reconnect
normalization — both count the same rows). -/
def countRole (picks : List PickRow) (r : Role) : Nat :=
  (picks.filter (fun p => p.role = r)).length

/-- The completion check shared by the make_pick handler and the reconnect
normalization: only when status != "completed", if both roles have reached
picks_per_player committed picks, set status = "completed" and stamp
completed_at with the current time only if it is still None. -/
def completionCheck (d : DraftRow) (picks : List PickRow) (now : Nat) : DraftRow :=
  if d.status = .completed then d
  else if d.picksPerPlayer ≤ countRole picks .host ∧
          d.picksPerPlayer ≤ countRole picks .guest then
    { d with
      status := .completed
      completedAt := match d.completedAt with
        | none => some now
        | some t => some t }
  else d

/-- DraftManager.next_pick: under the session lock, fail if not started /
first_turn unset / not the acting role's turn; otherwise increment
pick_number and recompute current_turn for pick_number + 1. -/
def nextPick (s : Session) (role : Role) : Except String (Session × Nat × Role) :=
  if !s.started then .error "Draft not started"
  else
    match s.firstTurn with
    | none => .error "Draft not started"
    | some ft =>
        if s.currentTurn ≠ some role then .error "Not your turn"
        else
          let pn := s.pickNumber + 1
          let ct := expectedRoleForPick ft (pn + 1)
          .ok ({ s with pickNumber := pn, currentTurn := some ct }, pn, ct)

/-- Setter for the per-role pending_selection entry. -/
def Session.setPending (s : Session) (r : Role) (v : Option Int) : Session :=
  match r with
  | .host => { s with pendingHost := v }
  | .guest => { s with pendingGuest := v }

/-- Messages the make_pick handler emits (send_to the sender vs broadcasts;
payloads other than error text are elided). -/
inductive MpEvent where
  | errToSender (msg : String)
  | pickMadeBroadcast
  | pendingClearedBroadcast
deriving DecidableEq, Repr

/-- The make_pick handler (draft_ws.py): validate the turn via
DraftManager.next_pick first, then durably: require the player to exist,
require no existing pick of the same player in this draft, insert the pick
row, run the completion check, and only then update the in-memory cache
(append the pick, clear current_constraint and the acting role's pending
selection).  On a durable failure it sends one error to the sender and
returns — the code does not restore session.pick_number / current_turn,
which next_pick already advanced.  The racy IntegrityError path duplicates
the deterministic duplicate check and is not modelled separately. -/
def makePick (s : Session) (db : DbState) (role : Role) (playerId : Int)
    (constraintTeam constraintYear : Option String) (now : Nat) :
    Session × DbState × List MpEvent :=
  match nextPick s role with
  | .error e => (s, db, [.errToSender e])
  | .ok (s1, pickNumber, _nextTurn) =>
      -- "Ensure in-memory session has correct persisted first_turn if reconnect happened mid-draft."
      let s2 := match db.draft.firstTurn with
        | some ft => if s1.firstTurn ≠ some ft then { s1 with firstTurn := some ft } else s1
        | none => s1
      if playerId ∉ db.players then
        (s2, db, [.errToSender "Player not found"])
      else if db.picks.any (fun p => p.playerId = playerId) then
        (s2, db, [.errToSender "Player already drafted"])
      else
        let row : PickRow :=
          { pickNumber := pickNumber, role := role, playerId := playerId
            constraintTeam := constraintTeam, constraintYear := constraintYear }
        let picks1 := db.picks ++ [row]
        let draft1 := completionCheck db.draft picks1 now
        let s3 := { s2 with picks := s2.picks ++ [row], currentConstraint := none }
        let s4 := s3.setPending role none
        (s4, { db with draft := draft1, picks := picks1 },
         [.pickMadeBroadcast, .pendingClearedBroadcast])

/-- C2 (code bug): a make_pick that passes turn validation but then fails
durably is NOT rolled back in memory.  Concretely: started draft,
firstTurn = host, pickNumber = 0, currentTurn = host, empty pick log, empty
player catalog; host sends make_pick for player 42.  next_pick advances the
session, the durable step fails with "Player not found" and the handler
returns — leaving pickNumber = 1 and currentTurn = guest while zero picks are
committed, so pickNumber no longer equals the committed pick count. -/
theorem make_pick_failed_durable_desync :
    (makePick
        { started := true, firstTurn := some .host, currentTurn := some .host,
          pickNumber := 0, picks := [] }
        { draft := { firstTurn := some .host, picksPerPlayer := 2 },
          players := [], picks := [] }
        .host 42 none none 0).1.pickNumber = 1 ∧
    (makePick
        { started := true, firstTurn := some .host, currentTurn := some .host,
          pickNumber := 0, picks := [] }
        { draft := { firstTurn := some .host, picksPerPlayer := 2 },
          players := [], picks := [] }
        .host 42 none none 0).1.currentTurn = some .guest ∧
    (makePick
        { started := true, firstTurn := some .host, currentTurn := some .host,
          pickNumber := 0, picks := [] }
        { draft := { firstTurn := some .host, picksPerPlayer := 2 },
          players := [], picks := [] }
        .host 42 none none 0).2.1.picks.length = 0 ∧
    (makePick
        { started := true, firstTurn := some .host, currentTurn := some .host,
          pickNumber := 0, picks := [] }
        { draft := { firstTurn := some .host, picksPerPlayer := 2 },
          players := [], picks := [] }
        .host 42 none none 0).2.2 = [.errToSender "Player not found"] := by
  decide

/-- C6: the completion check transitions a draft whose both roles have
reached picks_per_player to completed and stamps completed_at exactly once:
it is the identity on an already-completed draft, re-running it (at any later
time) changes nothing, and the stamp is taken from the first completing run. -/
theorem completion_stamped_once (d : DraftRow) (picks : List PickRow) (t t₂ : Nat) :
    (d.status = .completed → completionCheck d picks t = d) ∧
    completionCheck (completionCheck d picks t) picks t₂ = completionCheck d picks t ∧
    (d.status ≠ .completed →
      d.picksPerPlayer ≤ countRole picks .host →
      d.picksPerPlayer ≤ countRole picks .guest →
      (completionCheck d picks t).status = .completed ∧
      (completionCheck d picks t).completedAt =
        (match d.completedAt with
         | none => some t
         | some t0 => some t0)) := by
  refine ⟨?_, ?_, ?_⟩
  · intro h
    simp [completionCheck, h]
  · by_cases hc : d.status = .completed
    · simp [completionCheck, hc]
    · by_cases hdone : d.picksPerPlayer ≤ countRole picks .host ∧
          d.picksPerPlayer ≤ countRole picks .guest
      · simp [completionCheck, hc, hdone]
      · simp [completionCheck, hc, hdone]
  · intro hc h1 h2
    simp [completionCheck, hc, h1, h2]

/-- Witness for C6: a drafting draft with picksPerPlayer = 1 and one pick per
role completes and is stamped at the first run's time. -/
theorem completion_stamped_once_witness :
    ((({ status := .drafting, picksPerPlayer := 1 } : DraftRow).status ≠ .completed) ∧
     (completionCheck { status := .drafting, picksPerPlayer := 1 }
        [{ pickNumber := 1, role := .host, playerId := 7 },
         { pickNumber := 2, role := .guest, playerId := 8 }] 5).status = .completed) := by
  refine ⟨by decide, ?_⟩
  exact ((completion_stamped_once { status := .drafting, picksPerPlayer := 1 }
    [{ pickNumber := 1, role := .host, playerId := 7 },
     { pickNumber := 2, role := .guest, playerId := 8 }] 5 9).2.2
    (by decide) (by decide) (by decide)).1

/-- A loosely-typed JSON value as stored in draft_type.rules.  Lists and
dicts are modelled opaquely apart from their truthiness; floats do not occur
in the rules documents the helpers read. -/
inductive PyVal where
  | pNone
  | pBool (b : Bool)
  | pInt (n : Int)
  | pStr (s : String)
  | pList (nonempty : Bool)
  | pDict (nonempty : Bool)
deriving DecidableEq, Repr

/-- Python int(x) on a rules value: identity on ints, 0/1 on bools, decimal
parse on strings, raises (None here) otherwise. -/
def pyToInt : PyVal → Option Int
  | .pInt n => some n
  | .pBool b => some (if b then 1 else 0)
  | .pStr s => s.toInt?
  | _ => none

/-- Python bool(x) truthiness on a rules value. -/
def pyTruthy : PyVal → Bool
  | .pNone => false
  | .pBool b => b
  | .pInt n => n != 0
  | .pStr s => s ≠ ""
  | .pList ne => ne
  | .pDict ne => ne

/-- The rules-document keys read by the embedded helpers (absent key =
none, mirroring dict.get). -/
structure Rules where
  allowReroll : Option PyVal := none
  maxRerolls : Option PyVal := none
  rollCount : Option PyVal := none
deriving DecidableEq, Repr

/-- _max_rerolls_from_rules: bool(rules.get("allow_reroll", True)); max_r =
int(rules.get("max_rerolls", 0)) with 0 on conversion failure; result is
max(0, max_r) when rerolls are allowed, else 0. -/
def maxRerollsFromRules (rules : Rules) : Int :=
  let allow := pyTruthy (rules.allowReroll.getD (.pBool true))
  let maxR := match rules.maxRerolls with
    | none => 0
    | some v => (pyToInt v).getD 0
  if allow then max 0 maxR else 0

/-- _roll_count_from_rules: n = int(rules.get("roll_count", 1)) with 1 on a
missing key or conversion failure; result is max(1, min(5, n)). -/
def rollCountFromRules (rules : Rules) : Int :=
  let n := match rules.rollCount with
    | none => 1
    | some v => (pyToInt v).getD 1
  max 1 (min 5 n)

/-- C10: the number of parallel roll options is clamped to 1..5:
max(1, min(5, n)) for any integer-convertible roll_count value n, and 1 when
the key is missing or not convertible to an integer. -/
theorem roll_count_clamped (rules : Rules) :
    1 ≤ rollCountFromRules rules ∧ rollCountFromRules rules ≤ 5 ∧
    (∀ v n, rules.rollCount = some v → pyToInt v = some n →
        rollCountFromRules rules = max 1 (min 5 n)) ∧
    (rules.rollCount = none → rollCountFromRules rules = 1) ∧
    (∀ v, rules.rollCount = some v → pyToInt v = none →
        rollCountFromRules rules = 1) := by
  refine ⟨?_, ?_, ?_, ?_, ?_⟩
  · exact le_max_left 1 _
  · unfold rollCountFromRules
    exact max_le (by norm_num) (min_le_left _ _)
  · intro v n hv hn
    simp [rollCountFromRules, hv, hn]
  · intro hv
    simp [rollCountFromRules, hv]
  · intro v hv hn
    simp [rollCountFromRules, hv, hn]

/-- Witness for C10: roll_count = 9 is clamped to max(1, min(5, 9)) = 5. -/
theorem roll_count_clamped_witness :
    ({ rollCount := some (.pInt 9) } : Rules).rollCount = some (.pInt 9) ∧
    rollCountFromRules { rollCount := some (.pInt 9) } = max 1 (min 5 9) := by
  exact ⟨rfl, (roll_count_clamped { rollCount := some (.pInt 9) }).2.2.1
    (.pInt 9) 9 rfl rfl⟩

/-- Events _run_roll emits, all via DraftManager.broadcast to every live
connection of the session (payloads other than the constraint are elided). -/
inductive RollMsg where
  | rollStarted
  | stageResult (c : Constraint)
  | rollError
  | rollResult (c : Constraint)
deriving DecidableEq, Repr

/-- Outcome of one stage body of _run_roll for a given run: either the stage
computed (ok c, where c is current_constraint() rendered after it — the
accumulated builder state), or it raised (fail: an empty candidate pool such
as "No teams available for that year" / "No eligible players available for
that constraint", or a server error).  Randomness and query results are
folded into this oracle. -/
inductive StageOutcome where
  | ok (c : Constraint)
  | fail
deriving DecidableEq, Repr

/-- The stage loop of _run_roll: for each stage broadcast roll_started, run
the stage body; on an exception broadcast roll_error and break (aborting the
remaining stages); on success overwrite session.current_constraint with the
accumulated constraint and broadcast roll_stage_result.  The pacing sleeps
are timing only and not modelled. -/
def runStagesAux : List StageOutcome → Option Constraint → Option Constraint × List RollMsg
  | [], cur => (cur, [])
  | .fail :: _, cur => (cur, [.rollStarted, .rollError])
  | .ok c :: rest, _ =>
      let r := runStagesAux rest (some c)
      (r.1, .rollStarted :: .stageResult c :: r.2)

/-- _run_roll after the stage loop: if session.current_constraint is truthy
it is persisted and broadcast as roll_result.  The pair is (final
session.current_constraint, broadcasts in order). -/
def runRoll (prior : Option Constraint) (outcomes : List StageOutcome) :
    Option Constraint × List RollMsg :=
  let r := runStagesAux outcomes prior
  match r.1 with
  | some fin => (some fin, r.2 ++ [.rollResult fin])
  | none => (none, r.2)

/-- The session constraint left behind by an aborted run whose successful
stage results were pre (in order): the last of pre, or the prior constraint
when no stage succeeded. -/
def lastConstraint : List Constraint → Option Constraint → Option Constraint
  | [], prior => prior
  | c :: tl, _ => lastConstraint tl (some c)

/-- Broadcast sequence of a run that succeeds through pre and then fails. -/
def abortMsgs : List Constraint → List RollMsg
  | [] => [.rollStarted, .rollError]
  | c :: tl => .rollStarted :: .stageResult c :: abortMsgs tl

/-- Message-kind predicate used to count stage results. -/
def RollMsg.isStageResult : RollMsg → Bool
  | .stageResult _ => true
  | _ => false

/-- Message-kind predicate used to count roll errors. -/
def RollMsg.isRollError : RollMsg → Bool
  | .rollError => true
  | _ => false

/-- Message-kind predicate used to count started stages. -/
def RollMsg.isRollStarted : RollMsg → Bool
  | .rollStarted => true
  | _ => false

theorem runStagesAux_ok_prefix_fail (pre : List Constraint) (prior : Option Constraint)
    (rest : List StageOutcome) :
    runStagesAux (pre.map StageOutcome.ok ++ .fail :: rest) prior =
      (lastConstraint pre prior, abortMsgs pre) := by
  induction pre generalizing prior with
  | nil => rfl
  | cons c tl ih => simp [runStagesAux, lastConstraint, abortMsgs, ih]

theorem lastConstraint_append_last (pre : List Constraint) (c : Constraint)
    (prior : Option Constraint) :
    lastConstraint (pre ++ [c]) prior = some c := by
  induction pre generalizing prior with
  | nil => rfl
  | cons d tl ih => simp [lastConstraint, ih]

theorem abortMsgs_counts (pre : List Constraint) :
    ((abortMsgs pre).filter RollMsg.isRollError).length = 1 ∧
    ((abortMsgs pre).filter RollMsg.isStageResult).length = pre.length ∧
    ((abortMsgs pre).filter RollMsg.isRollStarted).length = pre.length + 1 := by
  induction pre with
  | nil => simp [abortMsgs, RollMsg.isRollError, RollMsg.isStageResult, RollMsg.isRollStarted]
  | cons c tl ih =>
      simp [abortMsgs, RollMsg.isRollError, RollMsg.isStageResult, RollMsg.isRollStarted,
        ih.1, ih.2.1, ih.2.2]

/-- C3 counterexample: a two-stage roll whose first stage succeeds (producing
the 1990s constraint) and whose second stage's pool is empty leaves
session.current_constraint at the partial constraint of the aborted attempt,
not at the previously valid constraint (the 1950s one) held before the
attempt began. -/
theorem roll_abort_clobbers_prior_constraint :
    (runRoll (some { options := [{ yearLabel := "1950-1959" }] })
        [.ok { options := [{ yearLabel := "1990-1999" }] }, .fail]).1 =
      some { options := [{ yearLabel := "1990-1999" }] } ∧
    (runRoll (some { options := [{ yearLabel := "1950-1959" }] })
        [.ok { options := [{ yearLabel := "1990-1999" }] }, .fail]).1 ≠
      some { options := [{ yearLabel := "1950-1959" }] } := by
  decide

/-- C3 amended: when a stage's pool is empty the roller aborts the remaining
stages of that roll (exactly the stages before the failure produce stage
results, and exactly the failing one more stage is started) and broadcasts
exactly one typed roll_error to both connections; session.currentConstraint
is left at the constraint accumulated through the last successful stage of
the aborted attempt — the prior constraint is preserved only when the very
first stage fails. -/
theorem roll_abort_keeps_last_successful_stage (prior : Option Constraint)
    (pre : List Constraint) (rest : List StageOutcome) :
    (runRoll prior (pre.map StageOutcome.ok ++ .fail :: rest)).1 =
      lastConstraint pre prior ∧
    (pre = [] → (runRoll prior (pre.map StageOutcome.ok ++ .fail :: rest)).1 = prior) ∧
    (∀ pre₂ c, pre = pre₂ ++ [c] →
      (runRoll prior (pre.map StageOutcome.ok ++ .fail :: rest)).1 = some c) ∧
    (((runRoll prior (pre.map StageOutcome.ok ++ .fail :: rest)).2.filter
        RollMsg.isRollError).length = 1 ∧
     ((runRoll prior (pre.map StageOutcome.ok ++ .fail :: rest)).2.filter
        RollMsg.isStageResult).length = pre.length ∧
     ((runRoll prior (pre.map StageOutcome.ok ++ .fail :: rest)).2.filter
        RollMsg.isRollStarted).length = pre.length + 1) := by
  have haux := runStagesAux_ok_prefix_fail pre prior rest
  have hcounts := abortMsgs_counts pre
  have hfinal : (runRoll prior (pre.map StageOutcome.ok ++ .fail :: rest)).1 =
      lastConstraint pre prior := by
    unfold runRoll
    rw [haux]
    cases h : lastConstraint pre prior <;> simp [h]
  have hmsgs : ∀ m : RollMsg → Bool, (∀ c, m (.rollResult c) = false) →
      ((runRoll prior (pre.map StageOutcome.ok ++ .fail :: rest)).2.filter m).length =
        ((abortMsgs pre).filter m).length := by
    intro m hm
    unfold runRoll
    rw [haux]
    cases h : lastConstraint pre prior <;> simp [h, List.filter_append, hm]
  refine ⟨hfinal, ?_, ?_, ?_, ?_, ?_⟩
  · intro hpre
    rw [hfinal, hpre]
    rfl
  · intro pre₂ c hpre
    rw [hfinal, hpre, lastConstraint_append_last]
  · rw [hmsgs RollMsg.isRollError (fun c => rfl)]
    exact hcounts.1
  · rw [hmsgs RollMsg.isStageResult (fun c => rfl)]
    exact hcounts.2.1
  · rw [hmsgs RollMsg.isRollStarted (fun c => rfl)]
    exact hcounts.2.2

/-- Witness for C3 amended: one successful stage then a failure keeps the
successful stage's constraint. -/
theorem roll_abort_keeps_last_successful_stage_witness :
    ([({ options := [{ yearLabel := "1990-1999" }] } : Constraint)] =
      [] ++ [{ options := [{ yearLabel := "1990-1999" }] }]) ∧
    (runRoll (some { options := [{ yearLabel := "1950-1959" }] })
        ([({ options := [{ yearLabel := "1990-1999" }] } : Constraint)].map
          StageOutcome.ok ++ .fail :: [])).1 =
      some { options := [{ yearLabel := "1990-1999" }] } := by
  refine ⟨by decide, ?_⟩
  exact (roll_abort_keeps_last_successful_stage
    (some { options := [{ yearLabel := "1950-1959" }] })
    [{ options := [{ yearLabel := "1990-1999" }] }] []).2.2.1
    [] { options := [{ yearLabel := "1990-1999" }] } (by decide)

/-- The durable reroll-budget state _run_roll's budget phase touches: the two
persisted per-role counters and the session's current constraint (whose
presence makes a roll a reroll). -/
structure BudgetState where
  host : Int := 0
  guest : Int := 0
  currentConstraint : Option Constraint := none
deriving DecidableEq, Repr

/-- A roll-family command as it reaches _run_roll.  roll is the current-turn
player's "roll" (consume_rerolls=True); forceReroll is the host-only
"force_reroll" rerolling for whoever is on the clock (consume_rerolls=False).
outcome is the session constraint after the stage loop (an oracle covering
every possible stage result, including an unchanged constraint on an aborted
first stage). -/
inductive RollCmd where
  | roll (byRole : Role) (outcome : Option Constraint)
  | forceReroll (byRole : Role) (outcome : Option Constraint)
deriving DecidableEq, Repr

/-- The budget phase of _run_roll plus the stage loop's effect on the
constraint: is_reroll = current_constraint is not None; only a consuming
reroll touches the acting role's counter, returning untouched (no stages run)
when it is already <= 0, else decrementing it by one.  The force_reroll
handler itself rejects when no constraint is active, so a forceReroll on an
empty constraint is a no-op here. -/
def budgetStep (st : BudgetState) (c : RollCmd) : BudgetState :=
  match c with
  | .roll byRole outcome =>
      if st.currentConstraint.isSome then
        match byRole with
        | .host =>
            if st.host ≤ 0 then st
            else { st with host := st.host - 1, currentConstraint := outcome }
        | .guest =>
            if st.guest ≤ 0 then st
            else { st with guest := st.guest - 1, currentConstraint := outcome }
      else { st with currentConstraint := outcome }
  | .forceReroll _ outcome =>
      if st.currentConstraint.isSome then { st with currentConstraint := outcome }
      else st

theorem budgetStep_nonneg (st : BudgetState) (c : RollCmd)
    (h1 : 0 ≤ st.host) (h2 : 0 ≤ st.guest) :
    0 ≤ (budgetStep st c).host ∧ 0 ≤ (budgetStep st c).guest := by
  rcases c with ⟨byRole, outcome⟩ | ⟨byRole, outcome⟩ <;> rcases byRole <;>
    simp only [budgetStep] <;> split_ifs <;>
    refine ⟨?_, ?_⟩ <;> simp_all <;> omega

/-- C4: over every sequence of roll / reroll / force_reroll commands, neither
persisted reroll counter ever drops below 0 (given the non-negative seed that
_max_rerolls_from_rules always produces); a force_reroll never changes either
counter; a roll issued while no constraint is active for the turn (the first
roll of a turn) never changes either counter; and the counter seed computed
from any rules document is non-negative. -/
theorem reroll_budget_invariant (cmds : List RollCmd) (st0 : BudgetState)
    (h1 : 0 ≤ st0.host) (h2 : 0 ≤ st0.guest) :
    (0 ≤ (cmds.foldl budgetStep st0).host ∧ 0 ≤ (cmds.foldl budgetStep st0).guest) ∧
    (∀ st : BudgetState, ∀ r : Role, ∀ c : Option Constraint,
        (budgetStep st (.forceReroll r c)).host = st.host ∧
        (budgetStep st (.forceReroll r c)).guest = st.guest) ∧
    (∀ st : BudgetState, ∀ r : Role, ∀ c : Option Constraint,
        st.currentConstraint = none →
        (budgetStep st (.roll r c)).host = st.host ∧
        (budgetStep st (.roll r c)).guest = st.guest) ∧
    (∀ rules : Rules, 0 ≤ maxRerollsFromRules rules) := by
  refine ⟨?_, ?_, ?_, ?_⟩
  · induction cmds generalizing st0 with
    | nil => exact ⟨h1, h2⟩
    | cons c tl ih =>
        have hs := budgetStep_nonneg st0 c h1 h2
        exact ih (budgetStep st0 c) hs.1 hs.2
  · intro st r c
    simp only [budgetStep]
    split <;> simp
  · intro st r c hnone
    cases r <;> simp [budgetStep, hnone]
  · intro rules
    simp only [maxRerollsFromRules]
    split_ifs
    · exact le_max_left (0 : ℤ) _
    · exact le_refl (0 : ℤ)

/-- Witness for C4: starting from 2/1 rerolls, a reroll by host, a free first
roll by guest and a force reroll leave both counters at their expected
non-negative values. -/
theorem reroll_budget_invariant_witness :
    (0 : Int) ≤ (2 : Int) ∧ (0 : Int) ≤ (1 : Int) ∧
    0 ≤ (([RollCmd.roll .host (some { options := [] }),
           RollCmd.forceReroll .host none].foldl budgetStep
            { host := 2, guest := 1,
              currentConstraint := some { options := [] } }).host) := by
  refine ⟨by decide, by decide, ?_⟩
  exact (reroll_budget_invariant
    [RollCmd.roll .host (some { options := [] }), RollCmd.forceReroll .host none]
    { host := 2, guest := 1, currentConstraint := some { options := [] } }
    (by decide) (by decide)).1.1

/-- Association-list view of the prev_by_id dict (team id ->
previous_team_id, which may itself be NULL); dict.get on a missing key is
none. -/
def lookupPrev (m : List (Int × Option Int)) (k : Int) : Option (Option Int) :=
  (m.find? (fun kv => kv.1 = k)).map (fun kv => kv.2)

theorem length_filter_not_mem_cons_lt (K : List Int) (seen : List Int) (cur : Int)
    (hK : cur ∈ K) (hseen : cur ∉ seen) :
    (K.filter (fun k => decide (k ∉ cur :: seen))).length <
      (K.filter (fun k => decide (k ∉ seen))).length := by
  induction K with
  | nil => cases hK
  | cons a tl ih =>
      by_cases hac : a = cur
      · subst hac
        have hmono2 : List.Sublist (tl.filter (fun k => decide (k ∉ a :: seen)))
            (tl.filter (fun k => decide (k ∉ seen))) := by
          refine List.monotone_filter_right tl ?_
          intro b hb
          simp only [decide_eq_true_eq, List.mem_cons, not_or] at hb ⊢
          exact hb.2
        have hlen := hmono2.length_le
        simp only [List.filter_cons]
        have h1 : (decide (a ∉ a :: seen)) = false := by simp
        have h2 : (decide (a ∉ seen)) = true := by simpa using hseen
        rw [h1, h2]
        simpa using Nat.lt_succ_of_le hlen
      · have htl : cur ∈ tl := by
          cases hK with
          | head => exact absurd rfl hac
          | tail _ h => exact h
        have ihtl := ih htl
        simp only [List.filter_cons]
        by_cases ha1 : a ∈ cur :: seen
        · have h1 : (decide (a ∉ cur :: seen)) = false := by
            simp only [decide_eq_false_iff_not, not_not]
            exact ha1
          rw [h1]
          by_cases ha2 : a ∈ seen
          · have h2 : (decide (a ∉ seen)) = false := by simpa using ha2
            rw [h2]
            exact ihtl
          · have h2 : (decide (a ∉ seen)) = true := by simpa using ha2
            rw [h2]
            exact Nat.lt_succ_of_lt ihtl
        · have h1 : (decide (a ∉ cur :: seen)) = true := by simpa using ha1
          have ha2 : a ∉ seen := fun h => ha1 (List.mem_cons_of_mem _ h)
          have h2 : (decide (a ∉ seen)) = true := by simpa using ha2
          rw [h1, h2]
          simpa using ihtl

/-- _team_franchise_root_id's while loop: follow previous_team_id links while
the current id has not been seen yet; stop (returning the current id) when it
was already seen (a cycle), when it has no entry or a NULL / 0 previous id
(Python treats both None and 0 as falsy).  Termination: each step adds the
current id — a key of the table, not yet seen — to the visited set, so the
keys not yet visited strictly shrink. -/
def teamFranchiseRootAux (m : List (Int × Option Int)) (cur : Int) (seen : List Int) : Int :=
  if hmem : cur ∈ seen then cur
  else
    match hl : lookupPrev m cur with
    | none => cur
    | some none => cur
    | some (some p) =>
        if p = 0 then cur
        else teamFranchiseRootAux m p (cur :: seen)
termination_by ((m.map (fun kv => kv.1)).filter (fun k => decide (k ∉ seen))).length
decreasing_by
  refine length_filter_not_mem_cons_lt _ _ _ ?_ hmem
  have hfind : (m.find? (fun kv => kv.1 = cur)).isSome := by
    unfold lookupPrev at hl
    cases hf : m.find? (fun kv => kv.1 = cur) with
    | none => rw [hf] at hl; cases hl
    | some kv => simp [hf]
  rcases Option.isSome_iff_exists.mp hfind with ⟨kv, hkv⟩
  have hmem2 : kv ∈ m := List.mem_of_find?_eq_some hkv
  have hfst : kv.1 = cur := by
    have := List.find?_some hkv
    simpa using this
  exact hfst ▸ List.mem_map_of_mem (fun kv => kv.1) hmem2

/-- _team_franchise_root_id: follow Team.previous_team_id links to a stable
franchise root id, with cycle protection via the visited set. -/
def teamFranchiseRootId (m : List (Int × Option Int)) (teamId : Int) : Int :=
  teamFranchiseRootAux m teamId []

/-- Fuel-bounded transcription of the same loop, returning none when the
iteration budget runs out; used to state that the traversal always completes
within |table| + 1 iterations. -/
def teamFranchiseRootFuel : Nat → List (Int × Option Int) → Int → List Int → Option Int
  | 0, _, _, _ => none
  | fuel + 1, m, cur, seen =>
      if cur ∈ seen then some cur
      else
        match lookupPrev m cur with
        | none => some cur
        | some none => some cur
        | some (some p) =>
            if p = 0 then some cur
            else teamFranchiseRootFuel fuel m p (cur :: seen)

theorem teamFranchiseRootFuel_sufficient (fuel : Nat) (m : List (Int × Option Int))
    (cur : Int) (seen : List Int)
    (h : ((m.map (fun kv => kv.1)).filter (fun k => decide (k ∉ seen))).length < fuel) :
    teamFranchiseRootFuel fuel m cur seen = some (teamFranchiseRootAux m cur seen) := by
  induction fuel generalizing cur seen with
  | zero => omega
  | succ n ih =>
      rw [teamFranchiseRootFuel]
      rw [teamFranchiseRootAux]
      by_cases hmem : cur ∈ seen
      · simp [hmem]
      · simp only [hmem, if_false, dif_neg, not_false_iff]
        cases hl : lookupPrev m cur with
        | none => rfl
        | some o =>
            cases o with
            | none => rfl
            | some p =>
                by_cases hp : p = 0
                · simp [hp]
                · simp only [hp, if_false]
                  refine ih p (cur :: seen) ?_
                  have hdec : ((m.map (fun kv => kv.1)).filter
                      (fun k => decide (k ∉ cur :: seen))).length <
                      ((m.map (fun kv => kv.1)).filter
                        (fun k => decide (k ∉ seen))).length := by
                    refine length_filter_not_mem_cons_lt _ _ _ ?_ hmem
                    have hfind : (m.find? (fun kv => kv.1 = cur)).isSome := by
                      unfold lookupPrev at hl
                      cases hf : m.find? (fun kv => kv.1 = cur) with
                      | none => rw [hf] at hl; cases hl
                      | some kv => simp [hf]
                    rcases Option.isSome_iff_exists.mp hfind with ⟨kv, hkv⟩
                    have hmem2 : kv ∈ m := List.mem_of_find?_eq_some hkv
                    have hfst : kv.1 = cur := by
                      have := List.find?_some hkv
                      simpa using this
                    exact hfst ▸ List.mem_map_of_mem (fun kv => kv.1) hmem2
                  omega

/-- C8: for every finite team table — previous-team links may form cycles of
any length or point at ids absent from the table — the franchise-root walk
completes within |table| + 1 iterations and returns the root id the
visited-set-bounded loop computes; the same bounded loop is inlined as
root_id in _roll_team. -/
theorem franchise_root_terminates (m : List (Int × Option Int)) (teamId : Int) :
    teamFranchiseRootFuel (m.length + 1) m teamId [] =
      some (teamFranchiseRootId m teamId) := by
  refine teamFranchiseRootFuel_sufficient _ m teamId [] ?_
  have h1 : ((m.map (fun kv => kv.1)).filter (fun k => decide (k ∉ ([] : List Int)))).length ≤
      (m.map (fun kv => kv.1)).length := List.length_filter_le _ _
  have h2 : (m.map (fun kv => kv.1)).length = m.length := List.length_map _ _
  omega

/-- The candidate id set _roll_player builds: catalogue players satisfying
the upstream eligibility filters (name-letter clause, active/retired toggle,
year/team stint filters, min/max coalesced stint counts — folded into the
predicate elig, which the SQL statement and the batch scan apply uniformly),
minus already-drafted ids (Player.id.not_in(drafted_player_ids)) and the ids
excluded within this roll (Player.id.not_in(exclude_ids)). -/
def rollPlayerCandidates (elig : Int → Bool) (catalog : List Int)
    (drafted exclude : List Int) : List Int :=
  catalog.filter (fun pid => elig pid && decide (pid ∉ drafted) && decide (pid ∉ exclude))

/-- _roll_player: raise "No eligible players available for that constraint"
when the candidate set is empty, otherwise return one of its members (both
the fast path's random offset and the stint-count path's random.choice pick
an element of the candidate set; the random draw is the oracle `choice`). -/
def rollPlayer (elig : Int → Bool) (catalog : List Int) (drafted exclude : List Int)
    (choice : Nat) : Except String Int :=
  if h : (rollPlayerCandidates elig catalog drafted exclude).length = 0 then
    .error "No eligible players available for that constraint"
  else
    .ok ((rollPlayerCandidates elig catalog drafted exclude).get
      ⟨choice % (rollPlayerCandidates elig catalog drafted exclude).length,
       Nat.mod_lt _ (Nat.pos_of_ne_zero h)⟩)

/-- The player stage of _run_roll: for i in range(roll_count), roll a player
with exclude_ids accumulating every id already rolled in this attempt; one
oracle choice per option.  A failure aborts the stage (the surrounding loop
broadcasts roll_error). -/
def rollPlayerStageAux (elig : Int → Bool) (catalog : List Int) (drafted : List Int) :
    List Nat → List Int → Except String (List Int)
  | [], _ => .ok []
  | c :: cs, exclude =>
      match rollPlayer elig catalog drafted exclude c with
      | .error e => .error e
      | .ok pid =>
          match rollPlayerStageAux elig catalog drafted cs (exclude ++ [pid]) with
          | .error e => .error e
          | .ok rest => .ok (pid :: rest)

/-- The player stage with the empty initial exclude set, as in _run_roll. -/
def rollPlayerStage (elig : Int → Bool) (catalog : List Int) (drafted : List Int)
    (choices : List Nat) : Except String (List Int) :=
  rollPlayerStageAux elig catalog drafted choices []

theorem rollPlayer_mem (elig : Int → Bool) (catalog : List Int)
    (drafted exclude : List Int) (choice : Nat) (pid : Int)
    (h : rollPlayer elig catalog drafted exclude choice = .ok pid) :
    pid ∉ drafted ∧ pid ∉ exclude := by
  unfold rollPlayer at h
  split at h
  · cases h
  · rename_i hne
    have hmem : pid ∈ rollPlayerCandidates elig catalog drafted exclude := by
      cases h
      exact List.get_mem _ _ _
    unfold rollPlayerCandidates at hmem
    rw [List.mem_filter] at hmem
    have hprops := hmem.2
    simp only [Bool.and_eq_true, decide_eq_true_eq] at hprops
    exact ⟨hprops.1.2, hprops.2⟩

theorem rollPlayerStageAux_distinct (elig : Int → Bool) (catalog : List Int)
    (drafted : List Int) (choices : List Nat) (exclude ids : List Int)
    (h : rollPlayerStageAux elig catalog drafted choices exclude = .ok ids) :
    ids.length = choices.length ∧ ids.Nodup ∧
    (∀ pid ∈ ids, pid ∉ drafted ∧ pid ∉ exclude) := by
  induction choices generalizing exclude ids with
  | nil =>
      cases h
      simp
  | cons c cs ih =>
      unfold rollPlayerStageAux at h
      cases hr : rollPlayer elig catalog drafted exclude c with
      | error e => rw [hr] at h; cases h
      | ok pid =>
          rw [hr] at h
          simp only [] at h
          cases hrest : rollPlayerStageAux elig catalog drafted cs (exclude ++ [pid]) with
          | error e => rw [hrest] at h; cases h
          | ok rest =>
              rw [hrest] at h
              cases h
              have hpid := rollPlayer_mem elig catalog drafted exclude c pid hr
              have hih := ih (exclude ++ [pid]) rest hrest
              refine ⟨by simp [hih.1], ?_, ?_⟩
              · rw [List.nodup_cons]
                refine ⟨?_, hih.2.1⟩
                intro hmem
                have := (hih.2.2 pid hmem).2
                simp at this
              · intro q hq
                cases hq with
                | head =>
                    exact hpid
                | tail _ htl =>
                    have hq2 := hih.2.2 q htl
                    refine ⟨hq2.1, ?_⟩
                    intro hqe
                    exact hq2.2 (by simp [hqe])

/-- C9: whenever the player stage with rollCount > 1 options succeeds, it
returns exactly one player per option, the returned ids are pairwise
distinct, and none of them appears among the draft's committed pick ids
(the drafted_player_ids set loaded from the pick log). -/
theorem multi_option_players_distinct (elig : Int → Bool) (catalog : List Int)
    (drafted : List Int) (choices : List Nat) (ids : List Int)
    (hn : 1 < choices.length)
    (h : rollPlayerStage elig catalog drafted choices = .ok ids) :
    ids.length = choices.length ∧ ids.Nodup ∧ ∀ pid ∈ ids, pid ∉ drafted := by
  have := rollPlayerStageAux_distinct elig catalog drafted choices [] ids h
  exact ⟨this.1, this.2.1, fun pid hp => (this.2.2 pid hp).1⟩

/-- Witness for C9: catalog 1,2,3 with player 2 already drafted and
rollCount = 2 returns the two distinct undrafted ids 1 and 3. -/
theorem multi_option_players_distinct_witness :
    1 < ([0, 0] : List Nat).length ∧
    rollPlayerStage (fun _ => true) [1, 2, 3] [2] [0, 0] = .ok [1, 3] ∧
    ([1, 3] : List Int).Nodup := by
  have hrun : rollPlayerStage (fun _ => true) [1, 2, 3] [2] [0, 0] = .ok [1, 3] := by rfl
  exact ⟨by decide,
    hrun,
    (multi_option_players_distinct (fun _ => true) [1, 2, 3] [2] [0, 0] [1, 3]
      (by decide) hrun).2.1⟩

/-- Destination of a message emitted while handling a command: send_to the
sending connection, or DraftManager.broadcast to both. -/
inductive Dest where
  | sender
  | both
deriving DecidableEq, Repr

/-- One message sent while rejecting a command: destination and error text. -/
abbrev Send := Dest × String

/-- Inbound websocket commands with the payload values their validation
reads (data.get of a missing key is pNone).  JSON booleans — which Python's
isinstance(-, int) also accepts — do not occur as player ids and are not
distinguished.  unknown stands for every message type with no elif branch,
including start_draft sent by the guest (its branch requires role == host). -/
inductive InCmd where
  | startDraft
  | roll
  | forceReroll
  | undoPick
  | setOnlyEligible (v : PyVal)
  | setDraftName (v : PyVal)
  | makePick (v : PyVal)
  | selectPlayer (v : PyVal)
  | unknown
deriving DecidableEq, Repr

/-- Result of a command's validation phase: the handler proceeds to its
effects, or the command is rejected having sent the listed messages. -/
inductive Handle where
  | proceeds
  | rejected (sends : List Send)
deriving DecidableEq, Repr

/-- The persisted reroll counter of a role. -/
def rerollsOf (d : DraftRow) : Role → Int
  | .host => d.hostRerolls
  | .guest => d.guestRerolls

/-- The validation/rejection phase of the draft_ws message loop, transcribed
branch by branch (the draft row itself is always found here, since the
session was created from it at connect).  roll folds in _run_roll's own
pre-stage checks: the started/turn re-check and the reroll-budget check
(consume_rerolls=True), which returns silently when the acting role's
counter is exhausted.  The racy IntegrityError rejection duplicates the
deterministic duplicate-pick check and is not modelled separately. -/
def dispatchValidate (cmd : InCmd) (role : Role) (s : Session) (db : DbState) : Handle :=
  match cmd with
  | .startDraft =>
      if role = .host then .proceeds
      else .rejected [(.sender, "Unsupported message or not allowed")]
  | .roll =>
      if ¬s.started ∨ s.currentTurn = none then .rejected []
      else if s.currentTurn ≠ some role then .rejected []
      else if s.currentConstraint.isSome ∧ rerollsOf db.draft role ≤ 0 then .rejected []
      else .proceeds
  | .forceReroll =>
      if role ≠ .host then .rejected [(.sender, "Only host can force reroll")]
      else if ¬s.started ∨ s.currentTurn = none then
        .rejected [(.sender, "Draft not started")]
      else if s.currentConstraint = none then
        .rejected [(.sender, "No constraint to reroll")]
      else .proceeds
  | .undoPick =>
      if role ≠ .host then .rejected [(.sender, "Only host can undo picks")]
      else if db.picks = [] then .rejected [(.sender, "No picks to undo")]
      else .proceeds
  | .setOnlyEligible v =>
      if role ≠ .host then .rejected [(.sender, "Only host can change this setting")]
      else
        match v with
        | .pBool _ => .proceeds
        | _ => .rejected [(.sender, "value must be boolean")]
  | .setDraftName v =>
      if role ≠ .host then .rejected [(.sender, "Only host can rename the draft")]
      else
        match v with
        | .pStr str =>
            if str.trim = "" then .rejected [(.sender, "Name cannot be blank")]
            else if 120 < str.trim.length then
              .rejected [(.sender, "Name too long (max 120)")]
            else .proceeds
        | _ => .rejected [(.sender, "value must be a string")]
  | .makePick v =>
      match v with
      | .pInt pid =>
          match nextPick s role with
          | .error e => .rejected [(.sender, e)]
          | .ok _ =>
              if pid ∉ db.players then .rejected [(.sender, "Player not found")]
              else if db.picks.any (fun p => p.playerId = pid) then
                .rejected [(.sender, "Player already drafted")]
              else .proceeds
      | _ => .rejected [(.sender, "player_id required")]
  | .selectPlayer v =>
      match v with
      | .pNone =>
          if ¬s.started ∨ s.currentTurn = none then .rejected []
          else if s.currentTurn ≠ some role then .rejected []
          else .proceeds
      | .pInt pid =>
          if ¬s.started ∨ s.currentTurn = none then .rejected []
          else if s.currentTurn ≠ some role then .rejected []
          else if pid ∉ db.players then .rejected [(.sender, "Player not found")]
          else .proceeds
      | _ => .rejected [(.sender, "player_id must be int or null")]
  | .unknown => .rejected [(.sender, "Unsupported message or not allowed")]

/-- The rejection paths whose error string is computed but never sent (the
roll / select_player turn validation sets roll_err / select_err and then
continues without send_to) together with the documented-silent exhausted
reroll budget. -/
def silentlyDropped (cmd : InCmd) (role : Role) (s : Session) (db : DbState) : Prop :=
  match cmd with
  | .roll =>
      ¬s.started = true ∨ s.currentTurn ≠ some role ∨
        (s.currentConstraint.isSome = true ∧ rerollsOf db.draft role ≤ 0)
  | .selectPlayer v =>
      (v = .pNone ∨ ∃ n, v = .pInt n) ∧
        (¬s.started = true ∨ s.currentTurn ≠ some role)
  | _ => False

/-- C5 counterexample: a roll issued by the wrong role (guest while host is
on the clock) is rejected with zero messages — silently swallowed, not
answered with exactly one response. -/
theorem rejected_roll_silent_drop :
    dispatchValidate .roll .guest
        { started := true, firstTurn := some .host, currentTurn := some .host } {} =
      .rejected [] ∧
    ([] : List Send).length ≠ 1 := by
  refine ⟨?_, by decide⟩
  rfl

/-- C5 amended: every rejected inbound command sends at most one message,
always to the sending connection only and never a broadcast; and the
rejections that send none are exactly the silent paths — roll and
select_player failing the started/turn validation, and a reroll whose acting
role's budget is exhausted — every other rejection yields exactly one
error to the sender. -/
theorem rejected_command_response_policy (cmd : InCmd) (role : Role) (s : Session)
    (db : DbState) (sends : List Send)
    (h : dispatchValidate cmd role s db = .rejected sends) :
    (∀ x ∈ sends, x.1 = Dest.sender) ∧ sends.length ≤ 1 ∧
    (sends = [] → silentlyDropped cmd role s db) ∧
    (¬silentlyDropped cmd role s db → sends.length = 1) := by
  cases cmd <;>
    simp only [dispatchValidate] at h <;>
    (repeat' split at h) <;>
    (try cases h) <;>
    simp_all [silentlyDropped] <;>
    (rename_i hd
     rcases hd with hst | hct <;> simp_all)

/-- Witness for C5 amended at an unknown command from the guest. -/
theorem rejected_command_response_policy_witness :
    dispatchValidate .unknown .guest {} {} =
      .rejected [(Dest.sender, "Unsupported message or not allowed")] ∧
    ([(Dest.sender, "Unsupported message or not allowed")] : List Send).length ≤ 1 := by
  refine ⟨rfl, ?_⟩
  exact (rejected_command_response_policy .unknown .guest {} {}
    [(Dest.sender, "Unsupported message or not allowed")] rfl).2.1

end BballDraft
